import Mathlib

/-!
Verification development for the RPG-Play-Project session-simulation core
(`src/rpg_sim`): domain model, generic d20 ruleset, simple director,
policy-driven actor, session engine, and the checkpoint ledger.

Python dicts are embedded as association lists (insertion order preserved,
keys unique in all states the code builds), Python ints as `Int`/`Nat`,
Python floats (policy scores) as exact fractions (`Frac`: all score
constants are exact decimals and the scoring algorithm is purely additive,
so exact rational arithmetic is value-faithful), and fallible code as
`Option`.
The stdlib `random.Random(seed)` generator is modelled as a deterministic
stream of naturals fully determined by the seed; theorems either quantify
over the stream or rely only on the stream being a function of the seed.
-/

set_option maxHeartbeats 1000000

namespace RpgSim

/-- `models.Character` (src/rpg_sim/models.py). -/
structure Character where
  name : String
  hp : Int
  stats : List (String × Int) := []
  tags : List String := []
  role : String := ""
  char_class : String := ""
  background : String := ""
  personality : String := ""
  goal : String := ""
  flaw : String := ""
deriving DecidableEq

/-- `models.Encounter`. -/
structure Encounter where
  id : String
  title : String
  threat : Int
  description : String
deriving DecidableEq

/-- `models.CampaignState`. -/
structure CampaignState where
  setting_name : String
  chapter : String
  turn_index : Int
  party : List Character
  encounters : List Encounter
  flags : List (String × String) := []
  log : List String := []
deriving DecidableEq

/-- `models.Scene`. -/
structure Scene where
  prompt : String
  options : List String
deriving DecidableEq

/-- `models.ActionIntent`. -/
structure ActionIntent where
  actor_name : String
  action : String
  target : Option String := none
deriving DecidableEq

/-- `models.ActionOutcome`. -/
structure ActionOutcome where
  actor_name : String
  success : Bool
  summary : String
  hp_delta : List (String × Int) := []
  flag_updates : List (String × String) := []
deriving DecidableEq

/-- `models.TurnResult`. -/
structure TurnResult where
  turn_index : Int
  scene_prompt : String
  intents : List ActionIntent
  outcomes : List ActionOutcome
deriving DecidableEq

/-- `models.SessionResult`. -/
structure SessionResult where
  setting_name : String
  total_turns : Int
  final_state : CampaignState
  turns : List TurnResult
deriving DecidableEq

/-- Lookup in an association list: first binding wins (Python `dict` access;
keys are unique in every dict the code builds). -/
def lookupAssoc {α : Type} (l : List (String × α)) (k : String) : Option α :=
  (l.find? (fun p => p.1 == k)).map (fun p => p.2)

/-- One key update, Python `dict.__setitem__` semantics: an existing key keeps
its position and gets the new value, a new key is appended. -/
def assocUpdate {α : Type} (l : List (String × α)) (k : String) (v : α) : List (String × α) :=
  if l.any (fun p => p.1 == k) then
    l.map (fun p => if p.1 == k then (p.1, v) else p)
  else
    l ++ [(k, v)]

/-- Python `dict.update`. -/
def updateAssocMany {α : Type} (l : List (String × α)) (us : List (String × α)) : List (String × α) :=
  us.foldl (fun acc kv => assocUpdate acc kv.1 kv.2) l

/-- A seeded pseudo-random generator: a deterministic stream of naturals plus a
position.  Models a `random.Random` instance. -/
structure Rng where
  stream : Nat → Nat
  idx : Nat

/-- Draw the next raw value and advance. -/
def Rng.next (r : Rng) : Nat × Rng :=
  (r.stream r.idx, ⟨r.stream, r.idx + 1⟩)

/-- `random.randint(1, 20)`: a value in `[1, 20]` drawn from the stream. -/
def Rng.randint20 (r : Rng) : Nat × Rng :=
  let p := r.next
  (1 + p.1 % 20, p.2)

/-- Model of `random.Random(seed)`: the stream is an arbitrary but fixed
function of the seed (the exact Mersenne-Twister values are not modelled;
no theorem below depends on particular stream values). -/
def mkRandom (seed : Int) : Rng :=
  ⟨fun i => (seed.natAbs + 1) * (2 * i + 1), 0⟩

/-- The action set of `GenericD20Ruleset.validate_intent`
(src/rpg_sim/rules/generic.py). -/
def allowedGeneric : List String := ["attack", "defend", "investigate", "negotiate", "rest"]

/-- `GenericD20Ruleset.validate_intent`. -/
def validate_intent (_campaign : CampaignState) (intent : ActionIntent) : Bool :=
  allowedGeneric.contains intent.action

/-- `GenericD20Ruleset.resolve_intent`: one d20 roll, per-action thresholds;
every action not matched by the four explicit branches falls through to the
final recovery ("rest") branch. -/
def resolve_intent (rng : Rng) (_campaign : CampaignState) (intent : ActionIntent) :
    ActionOutcome × Rng :=
  let pr := rng.randint20
  let roll := pr.1
  let rng' := pr.2
  let nm := intent.actor_name
  if intent.action = "attack" then
    let success := decide (10 ≤ roll)
    let summary :=
      if success then s!"{nm} attacks and lands a hit (roll={roll})"
      else s!"{nm} misses and takes strain (roll={roll})"
    ({ actor_name := nm, success := success, summary := summary,
       hp_delta := [(nm, if success then 0 else -1)] }, rng')
  else if intent.action = "defend" then
    let success := decide (8 ≤ roll)
    let summary :=
      if success then s!"{nm} fortifies position (roll={roll})"
      else s!"{nm} fails to brace in time (roll={roll})"
    ({ actor_name := nm, success := success, summary := summary }, rng')
  else if intent.action = "investigate" then
    let success := decide (11 ≤ roll)
    let summary :=
      if success then s!"{nm} uncovers a clue (roll={roll})"
      else s!"{nm} finds nothing useful (roll={roll})"
    ({ actor_name := nm, success := success, summary := summary,
       flag_updates := if success then [("latest_discovery", "clue_discovered")] else [] }, rng')
  else if intent.action = "negotiate" then
    let success := decide (12 ≤ roll)
    let summary :=
      if success then s!"{nm} secures a favorable bargain (roll={roll})"
      else s!"{nm} fails to persuade (roll={roll})"
    ({ actor_name := nm, success := success, summary := summary }, rng')
  else
    ({ actor_name := nm, success := true,
       summary := s!"{nm} takes a breath and recovers (roll={roll})",
       hp_delta := [(nm, 1)] }, rng')

/-- The option list offered by `SimpleDirector.build_scene`
(src/rpg_sim/agents.py). -/
def sceneOptions : List String := ["attack", "defend", "investigate", "negotiate", "rest"]

/-- `SimpleDirector.build_scene`: cycles through the encounter list by
`(turn_index - 1) % len(encounters)` (or a quiet-moment prompt when there are
no encounters), optionally appends a random source-chunk excerpt, and always
offers the fixed five-action option list. -/
def build_scene (chunks : List String) (rng : Rng) (campaign : CampaignState) : Scene × Rng :=
  let ch := campaign.chapter
  let prompt :=
    match campaign.encounters with
    | [] => s!"{ch}: A quiet moment with uncertain tension."
    | es =>
      let e := es.getD (((campaign.turn_index - 1) % (es.length : Int)).toNat)
        ⟨"", "", 0, ""⟩
      let ti := e.title
      let th := e.threat
      let de := e.description
      s!"{ch}: {ti}. Threat {th}. {de}"
  match chunks with
  | [] => ({ prompt := prompt, options := sceneOptions }, rng)
  | cs =>
    let pv := rng.next
    let ex := String.mk ((cs.getD (pv.1 % cs.length) "").toList.take 240)
    let rng' := pv.2
    ({ prompt := s!"{prompt} Source excerpt: {ex}", options := sceneOptions }, rng')

/-- Exact fraction arithmetic for the policy scores (Python floats).  The
scoring algorithm only ever adds scores and compares them, and every score
constant in the source is a short decimal, so unnormalized exact fractions
with cross-multiplication comparison are a value-faithful embedding. -/
structure Frac where
  num : Int
  den : Int
deriving DecidableEq

def Frac.add (a b : Frac) : Frac := ⟨a.num * b.den + b.num * a.den, a.den * b.den⟩

/-- Value equality (Python `==` on floats). -/
def Frac.beq (a b : Frac) : Bool := a.num * b.den == b.num * a.den

def Frac.ble (a b : Frac) : Bool := decide (a.num * b.den ≤ b.num * a.den)

instance : BEq Frac := ⟨Frac.beq⟩

instance : Max Frac := ⟨fun a b => if a.ble b then b else a⟩

/-- A character/default policy dictionary (src/rpg_sim/ai_agents.py): each
field is optional; an absent (or non-numeric, which the code treats the same
via `_as_float`/`isinstance` guards) field falls back to a default at use
sites. -/
structure PolicyDict where
  priorities : Option (List (String × Frac)) := none
  caution : Option Frac := none
  aggression : Option Frac := none
  exploration : Option Frac := none
  tie_breaker : Option (List String) := none

/-- The campaign-wide policy block read by `_choose_from_policy`. -/
structure CampaignPolicy where
  preferred_actions : List String := []
  avoid_actions : List String := []

/-- The `{campaign, default, characters}` policy profile
(`load_policy_profile`). -/
structure PolicyProfile where
  campaign : CampaignPolicy := {}
  defaultPolicy : PolicyDict := {}
  characters : List (String × PolicyDict) := []

/-- `PolicyDrivenActor._resolve_policy`: campaign defaults overridden
field-by-field by character overrides; a `priorities` override is merged
key-by-key into the default priorities, every other present field replaces
the default wholesale. -/
def resolve_policy (profile : PolicyProfile) (actor_name : String) : PolicyDict :=
  let base := profile.defaultPolicy
  match lookupAssoc profile.characters actor_name with
  | none => base
  | some ov =>
    { priorities :=
        match ov.priorities with
        | none => base.priorities
        | some p => some (updateAssocMany (base.priorities.getD []) p)
      caution := ov.caution.orElse (fun _ => base.caution)
      aggression := ov.aggression.orElse (fun _ => base.aggression)
      exploration := ov.exploration.orElse (fun _ => base.exploration)
      tie_breaker := ov.tie_breaker.orElse (fun _ => base.tie_breaker) }

/-- `_as_float`: a present numeric value, otherwise the default. -/
def as_float (v : Option Frac) (default : Frac) : Frac := v.getD default

/-- Keys of a Python dict comprehension over a possibly repeating list:
first-occurrence order, duplicates dropped. -/
def dedupFirstAux (seen : List String) : List String → List String
  | [] => []
  | x :: xs =>
    if seen.contains x then dedupFirstAux seen xs
    else x :: dedupFirstAux (x :: seen) xs

def dedupFirst (l : List String) : List String := dedupFirstAux [] l

/-- `scores[key] += delta` guarded by `key in scores`: a no-op when the key is
absent. -/
def addScore (sc : List (String × Frac)) (key : String) (delta : Frac) : List (String × Frac) :=
  sc.map (fun p => if p.1 == key then (p.1, p.2.add delta) else p)

def charListPrefixB : List Char → List Char → Bool
  | [], _ => true
  | _ :: _, [] => false
  | a :: as, b :: bs => a == b && charListPrefixB as bs

def charListInfixB (needle : List Char) : List Char → Bool
  | [] => needle.isEmpty
  | b :: t => charListPrefixB needle (b :: t) || charListInfixB needle t

/-- Python `needle in hay` on strings (substring test). -/
def strContains (hay needle : String) : Bool :=
  charListInfixB needle.toList hay.toList

/-- Python `str.lower()` (per-character lowercasing; the keyword tokens it is
compared against are all ASCII). -/
def strToLower (s : String) : String :=
  String.mk (s.toList.map Char.toLower)

/-- The score map built by `PolicyDrivenActor._choose_from_policy`: base score
1.0 per legal option, configured priorities added, then the situational
nudges (low-hp, undiscovered clue, role/class keywords, campaign
preferred/avoid lists) in the source's fixed order. -/
def computeScores (campaign : CampaignState) (scene : Scene) (actor : Character)
    (policy : PolicyDict) (campaignPolicy : CampaignPolicy) : List (String × Frac) :=
  let scores := (dedupFirst scene.options).map (fun o => (o, Frac.mk 1 1))
  let scores := (policy.priorities.getD []).foldl (fun sc kv => addScore sc kv.1 kv.2) scores
  let caution := as_float policy.caution (Frac.mk 1 2)
  let aggression := as_float policy.aggression (Frac.mk 1 2)
  let exploration := as_float policy.exploration (Frac.mk 1 2)
  let scores :=
    if actor.hp ≤ 3 then
      addScore
        (addScore (addScore scores "rest" ((Frac.mk 5 2).add caution))
          "defend" ((Frac.mk 3 2).add caution))
        "attack" (Frac.mk (-1) 1)
    else scores
  let noDiscovery :=
    match lookupAssoc campaign.flags "latest_discovery" with
    | none => true
    | some v => v == ""
  let scores :=
    if noDiscovery then addScore scores "investigate" ((Frac.mk 3 2).add exploration) else scores
  let role_text := strToLower (actor.role ++ " " ++ actor.personality)
  let class_text := strToLower actor.char_class
  let scores :=
    if strContains role_text "face" || strContains role_text "diplomat" ||
        strContains role_text "charisma" then
      addScore scores "negotiate" (Frac.mk 6 5)
    else scores
  let scores :=
    if strContains class_text "fighter" || strContains class_text "barbarian" ||
        strContains class_text "paladin" || strContains class_text "ranger" then
      addScore scores "attack" ((Frac.mk 6 5).add aggression)
    else scores
  let scores :=
    if strContains class_text "wizard" || strContains class_text "cleric" ||
        strContains class_text "rogue" || strContains class_text "bard" then
      addScore scores "investigate" ((Frac.mk 1 1).add exploration)
    else scores
  let scores :=
    if strContains class_text "fighter" || strContains class_text "barbarian" ||
        strContains class_text "ranger" then
      addScore scores "exploit-mastery" ((Frac.mk 1 1).add aggression)
    else scores
  let scores :=
    if actor.background ≠ "" then addScore scores "use-equipment" (Frac.mk 3 5) else scores
  let scores :=
    campaignPolicy.preferred_actions.foldl (fun sc a => addScore sc a (Frac.mk 7 20)) scores
  campaignPolicy.avoid_actions.foldl (fun sc a => addScore sc a (Frac.mk (-9) 20)) scores

/-- `PolicyDrivenActor._choose_from_policy` after the score map is built:
unique maximum wins; on ties the first tie-breaker entry among the tied
options wins; otherwise the actor's RNG picks among the tied options in scene
order; an empty option list makes the Python code raise (`max` over an empty
dict), modelled as `none`. -/
def choose_from_policy (profile : PolicyProfile) (rng : Rng) (campaign : CampaignState)
    (scene : Scene) (actor : Character) (policy : PolicyDict) : Option (String × Rng) :=
  let scores : List (String × Frac) := computeScores campaign scene actor policy profile.campaign
  match (scores.map Prod.snd).max? with
  | none => none
  | some best_score =>
    let best_actions := (scores.filter (fun p => p.2 == best_score)).map Prod.fst
    match best_actions with
    | [single] => some (single, rng)
    | _ =>
      match (policy.tie_breaker.getD []).find? (fun p => best_actions.contains p) with
      | some preferred => some (preferred, rng)
      | none =>
        let ordered := scene.options.filter (fun o => best_actions.contains o)
        if ordered.isEmpty then
          match scene.options with
          | [] => none
          | o :: _ => some (o, rng)
        else
          let pv := rng.next
          some (ordered.getD (pv.1 % ordered.length) "", pv.2)

/-- `PolicyDrivenActor.choose_action` with AI disabled (`use_ai=False` or no
API key): look the actor up in the party (Python raises `StopIteration` when
the name is absent, modelled as `none`), resolve the effective policy, and
return the deterministic policy choice as an `ActionIntent`. -/
def choose_action (profile : PolicyProfile) (rng : Rng) (campaign : CampaignState)
    (scene : Scene) (actor_name : String) : Option (ActionIntent × Rng) :=
  match campaign.party.find? (fun m => m.name == actor_name) with
  | none => none
  | some actor =>
    let policy := resolve_policy profile actor_name
    match choose_from_policy profile rng campaign scene actor policy with
    | none => none
    | some (action, rng') => some ({ actor_name := actor_name, action := action }, rng')

/-- `SessionEngine._apply_outcome`: each hp-delta entry updates every party
member with a matching name to `max(0, hp + delta)`; the flag updates are
merged into the campaign flags. -/
def apply_outcome (campaign : CampaignState) (outcome : ActionOutcome) : CampaignState :=
  let party := outcome.hp_delta.foldl
    (fun pt kv => pt.map (fun m => if m.name == kv.1 then { m with hp := max 0 (m.hp + kv.2) } else m))
    campaign.party
  { campaign with party := party, flags := updateAssocMany campaign.flags outcome.flag_updates }

/-- `SessionEngine._all_party_defeated`. -/
def all_party_defeated (campaign : CampaignState) : Bool :=
  campaign.party.all (fun m => decide (m.hp ≤ 0))

/-- The engine's mutable state while one turn's characters act. -/
structure RunState where
  campaign : CampaignState
  rulesetRng : Rng
  actorRng : Rng
  intents : List ActionIntent
  outcomes : List ActionOutcome

def arbCharacter : Character := { name := "", hp := 0 }

/-- The engine's log line for a resolved outcome:
`f"Turn {turn_number}: {outcome.summary}"`. -/
def turnLogLine (turn_number : Int) (summary : String) : String :=
  s!"Turn {turn_number}: {summary}"

/-- The engine's rejection log line:
`f"Turn {turn_number}: {character.name} submitted invalid action"`. -/
def invalidActionLine (turn_number : Int) (nm : String) : String :=
  s!"Turn {turn_number}: {nm} submitted invalid action"

/-- One iteration of the engine's per-character loop (body of the inner `for`
in `SessionEngine.run`), at position `i` of the party list: a defeated
character is skipped; an invalid intent is logged and skipped; a valid intent
is resolved, its outcome applied and logged, and intent and outcome recorded. -/
def stepCharacter (profile : PolicyProfile) (turn_number : Int) (scene : Scene)
    (st : RunState) (i : Nat) : Option RunState :=
  let character := st.campaign.party.getD i arbCharacter
  if character.hp ≤ 0 then some st
  else
    match choose_action profile st.actorRng st.campaign scene character.name with
    | none => none
    | some (intent, actorRng') =>
      if validate_intent st.campaign intent then
        let pr := resolve_intent st.rulesetRng st.campaign intent
        let outcome := pr.1
        let rulesetRng' := pr.2
        let campaign' := apply_outcome st.campaign outcome
        some { campaign :=
                 { campaign' with log := campaign'.log ++ [turnLogLine turn_number outcome.summary] }
               rulesetRng := rulesetRng'
               actorRng := actorRng'
               intents := st.intents ++ [intent]
               outcomes := st.outcomes ++ [outcome] }
      else
        some { st with
               campaign := { st.campaign with
                             log := st.campaign.log ++ [invalidActionLine turn_number character.name] }
               actorRng := actorRng' }

def foldSteps (f : RunState → Nat → Option RunState) : List Nat → RunState → Option RunState
  | [], st => some st
  | i :: rest, st =>
    match f st i with
    | none => none
    | some st' => foldSteps f rest st'

/-- The engine's state between turns. -/
structure LoopState where
  campaign : CampaignState
  rulesetRng : Rng
  directorRng : Rng
  actorRng : Rng
  turns : List TurnResult

/-- One turn of `SessionEngine.run`: set `turn_index`, build one shared scene,
run every party member in list order, record the `TurnResult`, then check the
all-defeated termination condition (the returned flag). -/
def processTurn (profile : PolicyProfile) (chunks : List String) (turn_number : Int)
    (ls : LoopState) : Option (LoopState × Bool) :=
  let campaign0 := { ls.campaign with turn_index := turn_number }
  let pb := build_scene chunks ls.directorRng campaign0
  let scene := pb.1
  let directorRng' := pb.2
  match foldSteps (stepCharacter profile turn_number scene) (List.range campaign0.party.length)
      { campaign := campaign0, rulesetRng := ls.rulesetRng, actorRng := ls.actorRng,
        intents := [], outcomes := [] } with
  | none => none
  | some st =>
    let tr : TurnResult :=
      { turn_index := turn_number, scene_prompt := scene.prompt,
        intents := st.intents, outcomes := st.outcomes }
    let defeated := all_party_defeated st.campaign
    let campaign' :=
      if defeated then
        { st.campaign with log := st.campaign.log ++ ["Session ended: all party members defeated"] }
      else st.campaign
    some ({ campaign := campaign', rulesetRng := st.rulesetRng, directorRng := directorRng',
            actorRng := st.actorRng, turns := ls.turns ++ [tr] }, defeated)

/-- The turn loop of `SessionEngine.run` over the remaining turn numbers; a
`true` termination flag breaks out early. -/
def runLoop (profile : PolicyProfile) (chunks : List String) :
    List Int → LoopState → Option LoopState
  | [], ls => some ls
  | t :: rest, ls =>
    match processTurn profile chunks t ls with
    | none => none
    | some (ls', true) => some ls'
    | some (ls', false) => runLoop profile chunks rest ls'

/-- `range(1, max_turns + 1)`. -/
def turnNumbers (max_turns : Int) : List Int :=
  (List.range' 1 max_turns.toNat).map (fun k => (k : Int))

/-- `SessionEngine.run`, for an engine wired with `GenericD20Ruleset`,
`SimpleDirector` and `PolicyDrivenActor` (AI disabled), with the three
components' RNG states passed explicitly. -/
def run (profile : PolicyProfile) (chunks : List String) (rulesetRng directorRng actorRng : Rng)
    (campaign : CampaignState) (max_turns : Int) : Option SessionResult :=
  match runLoop profile chunks (turnNumbers max_turns)
      { campaign := campaign, rulesetRng := rulesetRng, directorRng := directorRng,
        actorRng := actorRng, turns := [] } with
  | none => none
  | some ls =>
    some { setting_name := ls.campaign.setting_name
           total_turns := ls.campaign.turn_index
           final_state := ls.campaign
           turns := ls.turns }

/-- One full invocation as `main.run_single` wires it: freshly constructed
`GenericD20Ruleset(random_seed=seed)`, `SimpleDirector(source_chunks,
random_seed=seed)` and `PolicyDrivenActor(policy_profile, random_seed=seed)`
(AI disabled), then `engine.run(campaign, max_turns)`. -/
def runSession (profile : PolicyProfile) (chunks : List String) (seed : Int)
    (campaign : CampaignState) (max_turns : Int) : Option SessionResult :=
  run profile chunks (mkRandom seed) (mkRandom seed) (mkRandom seed) campaign max_turns

/-- `asdict(Character)` (src/rpg_sim/campaign_loader.py round trip): the flat
dictionary produced by `dataclasses.asdict`, with every field present. -/
structure CharacterDict where
  name : String
  hp : Int
  stats : List (String × Int)
  tags : List String
  role : String
  char_class : String
  background : String
  personality : String
  goal : String
  flaw : String
deriving DecidableEq

structure EncounterDict where
  id : String
  title : String
  threat : Int
  description : String
deriving DecidableEq

/-- `asdict(CampaignState)`. -/
structure CampaignDict where
  setting_name : String
  chapter : String
  turn_index : Int
  party : List CharacterDict
  encounters : List EncounterDict
  flags : List (String × String)
  log : List String
deriving DecidableEq

def character_to_dict (c : Character) : CharacterDict :=
  { name := c.name, hp := c.hp, stats := c.stats, tags := c.tags, role := c.role,
    char_class := c.char_class, background := c.background, personality := c.personality,
    goal := c.goal, flaw := c.flaw }

def encounter_to_dict (e : Encounter) : EncounterDict :=
  { id := e.id, title := e.title, threat := e.threat, description := e.description }

/-- `campaign_state_to_dict` = `dataclasses.asdict`. -/
def campaign_state_to_dict (s : CampaignState) : CampaignDict :=
  { setting_name := s.setting_name, chapter := s.chapter, turn_index := s.turn_index,
    party := s.party.map character_to_dict, encounters := s.encounters.map encounter_to_dict,
    flags := s.flags, log := s.log }

/-- `campaign_loader._parse_character` on a dict with every key present. -/
def parse_character (d : CharacterDict) : Character :=
  { name := d.name, hp := d.hp, stats := d.stats, tags := d.tags, role := d.role,
    char_class := d.char_class, background := d.background, personality := d.personality,
    goal := d.goal, flaw := d.flaw }

def parse_encounter (d : EncounterDict) : Encounter :=
  { id := d.id, title := d.title, threat := d.threat, description := d.description }

/-- `campaign_state_from_dict` on a dict with every key present (the shape
`campaign_state_to_dict` produces; `int(...)` on an int is the identity). -/
def campaign_state_from_dict (d : CampaignDict) : CampaignState :=
  { setting_name := d.setting_name, chapter := d.chapter, turn_index := d.turn_index,
    party := d.party.map parse_character, encounters := d.encounters.map parse_encounter,
    flags := d.flags, log := d.log }

/-- One entry of the manifest's `sessions` list (src/rpg_sim/ledger.py). -/
structure SessionEntry where
  session_id : String
  created_at : String
  seed : Int
  turns : Int
  source_profile : String
  path : String
deriving DecidableEq

/-- The per-campaign `manifest.json` contents. -/
structure Manifest where
  campaign_id : String
  created_at : String
  session_count : Int
  sessions : List SessionEntry
  updated_at : Option String := none

/-- The session file written for one recorded session. -/
structure SessionPayload where
  session_id : String
  created_at : String
  seed : Int
  turns : Int
  source_profile : String
  result : SessionResult

/-- The on-disk ledger contents for one campaign id. -/
structure LedgerFiles where
  manifest : Manifest
  sessionFiles : List (String × SessionPayload) := []
  latest_state : Option CampaignDict := none

/-- `ensure_ledger` when no manifest exists yet: the fresh manifest. -/
def freshManifest (campaign_id : String) (created_at : String) : Manifest :=
  { campaign_id := campaign_id, created_at := created_at, session_count := 0, sessions := [] }

def leftPadZeros (w : Nat) (s : String) : String :=
  String.mk (List.replicate (w - s.length) '0') ++ s

/-- Python `f"{n:04d}"`. -/
def pad4Int (n : Int) : String :=
  if n < 0 then "-" ++ leftPadZeros 3 (toString (-n))
  else leftPadZeros 4 (toString n)

/-- `record_session`: reads the manifest's `session_count`, derives the next
zero-padded session id, writes the session payload, overwrites the
latest-state snapshot with `result.to_dict()["final_state"]`, appends the
manifest entry and bumps `session_count`.  Returns the new ledger contents
with the `{session_id, path}` summary the function returns. -/
def record_session (sessionsDir : String) (fs : LedgerFiles) (result : SessionResult)
    (run_seed : Int) (turns : Int) (source_profile : String) (now : String) :
    LedgerFiles × String × String :=
  let next_index := fs.manifest.session_count + 1
  let session_id := "session_" ++ pad4Int next_index
  let session_path := sessionsDir ++ "/" ++ session_id ++ ".json"
  let payload : SessionPayload :=
    { session_id := session_id, created_at := now, seed := run_seed, turns := turns,
      source_profile := source_profile, result := result }
  let entry : SessionEntry :=
    { session_id := session_id, created_at := now, seed := run_seed, turns := turns,
      source_profile := source_profile, path := session_path }
  let manifest' : Manifest :=
    { fs.manifest with
      sessions := fs.manifest.sessions ++ [entry]
      session_count := next_index
      updated_at := some now }
  ({ manifest := manifest'
     sessionFiles := fs.sessionFiles ++ [(session_path, payload)]
     latest_state := some (campaign_state_to_dict result.final_state) },
   session_id, session_path)

/-! ## Helper lemmas -/

theorem parse_character_to_dict (c : Character) : parse_character (character_to_dict c) = c := rfl

theorem parse_encounter_to_dict (e : Encounter) : parse_encounter (encounter_to_dict e) = e := rfl

theorem Frac.beq_refl (a : Frac) : (a == a) = true := by
  simp [BEq.beq, Frac.beq]

theorem addScore_keys (sc : List (String × Frac)) (k : String) (v : Frac) :
    (addScore sc k v).map Prod.fst = sc.map Prod.fst := by
  induction sc with
  | nil => rfl
  | cons p t ih =>
    simp only [addScore, List.map] at ih ⊢
    refine congrArg₂ _ ?_ ih
    by_cases h : p.1 == k <;> simp [h]

theorem foldl_addScore_keys_prior (l : List (String × Frac)) (sc : List (String × Frac)) :
    ((l.foldl (fun s kv => addScore s kv.1 kv.2) sc).map Prod.fst) = sc.map Prod.fst := by
  induction l generalizing sc with
  | nil => rfl
  | cons kv t ih => simpa [addScore_keys] using ih (addScore sc kv.1 kv.2)

theorem foldl_addScore_keys_const (c : Frac) (l : List String) (sc : List (String × Frac)) :
    ((l.foldl (fun s a => addScore s a c) sc).map Prod.fst) = sc.map Prod.fst := by
  induction l generalizing sc with
  | nil => rfl
  | cons a t ih => simpa [addScore_keys] using ih (addScore sc a c)

theorem computeScores_keys (campaign : CampaignState) (scene : Scene) (actor : Character)
    (policy : PolicyDict) (cp : CampaignPolicy) :
    (computeScores campaign scene actor policy cp).map Prod.fst = dedupFirst scene.options := by
  unfold computeScores
  simp only [foldl_addScore_keys_prior, foldl_addScore_keys_const, addScore_keys,
    apply_ite (List.map Prod.fst), ite_self, List.map_map]
  rw [show (Prod.fst ∘ fun o : String => (o, Frac.mk 1 1)) = id from rfl, List.map_id]

theorem mem_dedupFirstAux (seen : List String) (l : List String) (x : String)
    (h : x ∈ dedupFirstAux seen l) : x ∈ l := by
  induction l generalizing seen with
  | nil => exact absurd h (by simp [dedupFirstAux])
  | cons a t ih =>
    rw [show dedupFirstAux seen (a :: t)
        = if seen.contains a then dedupFirstAux seen t
          else a :: dedupFirstAux (a :: seen) t from rfl] at h
    by_cases hc : seen.contains a
    · rw [if_pos hc] at h
      exact List.mem_cons_of_mem a (ih _ h)
    · rw [if_neg hc] at h
      rcases List.mem_cons.mp h with h | h
      · exact h ▸ List.mem_cons_self a t
      · exact List.mem_cons_of_mem a (ih _ h)

theorem mem_dedupFirst (l : List String) (x : String) (h : x ∈ dedupFirst l) : x ∈ l :=
  mem_dedupFirstAux [] l x h

theorem dedupFirst_cons (a : String) (t : List String) :
    dedupFirst (a :: t) = a :: dedupFirstAux [a] t := by
  simp [dedupFirst, dedupFirstAux]

theorem foldl_max_mem {α : Type} [Max α] (hchoice : ∀ a b : α, max a b = a ∨ max a b = b)
    (xs : List α) (x : α) : xs.foldl max x ∈ x :: xs := by
  induction xs generalizing x with
  | nil => simp
  | cons y ys ih =>
    have h := ih (max x y)
    rw [List.foldl_cons]
    rcases List.mem_cons.mp h with h' | h'
    · rcases hchoice x y with hm | hm
      · rw [h', hm]
        exact List.mem_cons_self x (y :: ys)
      · rw [h', hm]
        exact List.mem_cons_of_mem x (List.mem_cons_self y ys)
    · exact List.mem_cons_of_mem x (List.mem_cons_of_mem y h')

theorem frac_max_choice (a b : Frac) : max a b = a ∨ max a b = b := by
  by_cases h : a.ble b
  · right
    simp [max, h]
  · left
    simp [max, h]

theorem frac_max?_mem (l : List Frac) (h : l ≠ []) : ∃ b, l.max? = some b ∧ b ∈ l := by
  cases l with
  | nil => exact absurd rfl h
  | cons x xs =>
    exact ⟨xs.foldl max x, rfl, foldl_max_mem frac_max_choice xs x⟩

theorem best_actions_subset (scores : List (String × Frac)) (best : Frac) (scene : Scene)
    (hkeys : scores.map Prod.fst = dedupFirst scene.options) (b : String)
    (hb : b ∈ (scores.filter (fun p => p.2 == best)).map Prod.fst) : b ∈ scene.options := by
  rcases List.mem_map.mp hb with ⟨p, hp, rfl⟩
  have hps : p ∈ scores := List.mem_of_mem_filter hp
  have hfst : p.1 ∈ scores.map Prod.fst := List.mem_map_of_mem _ hps
  rw [hkeys] at hfst
  exact mem_dedupFirst _ _ hfst

theorem stringList_contains_mem (l : List String) (a : String) (h : l.contains a = true) :
    a ∈ l := by
  simpa [List.contains] using List.elem_iff.mp h

theorem choose_from_policy_spec (profile : PolicyProfile) (rng : Rng) (campaign : CampaignState)
    (scene : Scene) (actor : Character) (policy : PolicyDict) (hopts : scene.options ≠ []) :
    ∃ a rng', choose_from_policy profile rng campaign scene actor policy = some (a, rng') ∧
      a ∈ scene.options := by
  have hkeys := computeScores_keys campaign scene actor policy profile.campaign
  unfold choose_from_policy
  set scores := computeScores campaign scene actor policy profile.campaign with hsc
  have hscne : scores ≠ [] := by
    intro h0
    rw [h0] at hkeys
    cases ho : scene.options with
    | nil => exact hopts ho
    | cons o t =>
      rw [ho, dedupFirst_cons] at hkeys
      exact List.noConfusion hkeys
  have hvne : scores.map Prod.snd ≠ [] := by
    simpa [List.map_eq_nil_iff] using hscne
  obtain ⟨best, hmax, hbestmem⟩ := frac_max?_mem _ hvne
  obtain ⟨q, hq, hq2⟩ := List.mem_map.mp hbestmem
  have hqfilter : q ∈ scores.filter (fun p => p.2 == best) :=
    List.mem_filter.mpr ⟨hq, by rw [hq2]; exact Frac.beq_refl best⟩
  have hbanemem : q.1 ∈ (scores.filter (fun p => p.2 == best)).map Prod.fst :=
    List.mem_map_of_mem _ hqfilter
  dsimp only
  rw [hmax]
  dsimp only
  split
  next single heq =>
    refine ⟨single, rng, rfl, ?_⟩
    exact best_actions_subset scores best scene hkeys single
      (heq ▸ List.mem_cons_self single [])
  next x hnotsingle =>
    split
    next preferred hfind =>
      refine ⟨preferred, rng, rfl, ?_⟩
      have hcont := List.find?_some hfind
      exact best_actions_subset scores best scene hkeys preferred
        (stringList_contains_mem _ _ hcont)
    next hfindnone =>
      split
      next hord =>
        cases ho : scene.options with
        | nil => exact absurd ho hopts
        | cons o t => exact ⟨o, rng, rfl, List.mem_cons_self o t⟩
      next hord =>
        set ordered :=
          scene.options.filter
            (fun o => ((scores.filter (fun p => p.2 == best)).map Prod.fst).contains o)
          with hordeq
        have hne : ordered ≠ [] := by
          intro h0
          exact hord (by rw [h0]; rfl)
        have hlen : 0 < ordered.length := List.length_pos.mpr hne
        have hidx : rng.next.1 % ordered.length < ordered.length := Nat.mod_lt _ hlen
        refine ⟨ordered.getD (rng.next.1 % ordered.length) "", rng.next.2, rfl, ?_⟩
        rw [List.getD_eq_getElem ordered "" hidx]
        exact List.mem_of_mem_filter (List.getElem_mem hidx)

/-! ## Claim theorems -/

/-- C1: for every fixed campaign state, max_turns and seed, two independent
invocations of `SessionEngine.run` with freshly constructed components
(`GenericD20Ruleset`, `SimpleDirector`, `PolicyDrivenActor`, AI disabled)
seeded identically produce identical `SessionResult` values: the same log
line sequence and the same final hp for every party member.  In the
embedding every stochastic choice is drawn from the seed-determined streams,
so a run is a pure function of `(profile, chunks, seed, campaign, max_turns)`
and the two invocations coincide. -/
theorem c1_run_determinism (profile : PolicyProfile) (chunks : List String) (seed : Int)
    (campaign : CampaignState) (max_turns : Int) :
    run profile chunks (mkRandom seed) (mkRandom seed) (mkRandom seed) campaign max_turns
        = runSession profile chunks seed campaign max_turns ∧
    (runSession profile chunks seed campaign max_turns).map (fun r => r.final_state.log)
        = (run profile chunks (mkRandom seed) (mkRandom seed) (mkRandom seed) campaign
            max_turns).map (fun r => r.final_state.log) ∧
    (runSession profile chunks seed campaign max_turns).map
          (fun r => r.final_state.party.map (fun m => (m.name, m.hp)))
        = (run profile chunks (mkRandom seed) (mkRandom seed) (mkRandom seed) campaign
            max_turns).map (fun r => r.final_state.party.map (fun m => (m.name, m.hp))) :=
  ⟨rfl, rfl, rfl⟩

/-- C8: `campaign_state_from_dict` is a left inverse of
`campaign_state_to_dict`: the round trip restores `turn_index`, every party
member's name and hp (and all other character fields), flags and the log
verbatim. -/
theorem c8_state_dict_roundtrip (s : CampaignState) :
    campaign_state_from_dict (campaign_state_to_dict s) = s := by
  cases s with
  | mk sn ch ti pa en fl lo =>
    have hp : List.map parse_character (List.map character_to_dict pa) = pa := by
      rw [List.map_map,
        show (parse_character ∘ character_to_dict) = id from funext parse_character_to_dict,
        List.map_id]
    have he : List.map parse_encounter (List.map encounter_to_dict en) = en := by
      rw [List.map_map,
        show (parse_encounter ∘ encounter_to_dict) = id from funext parse_encounter_to_dict,
        List.map_id]
    simp only [campaign_state_to_dict, campaign_state_from_dict, hp, he]

/-- C7: starting from a fresh manifest (`session_count = 0`), three successive
`record_session` calls for the same campaign id assign the session ids
`session_0001`, `session_0002`, `session_0003`, leave `session_count = 3` in
the manifest, and leave the latest-state snapshot equal to the third call's
`SessionResult.final_state` (serialized). -/
theorem c7_ledger_three_sessions (sdir cid ts0 ts1 ts2 ts3 sp : String)
    (r1 r2 r3 : SessionResult) (s1 s2 s3 t1 t2 t3 : Int) :
    (record_session sdir { manifest := freshManifest cid ts0 } r1 s1 t1 sp ts1).2.1
        = "session_0001" ∧
    (record_session sdir
        (record_session sdir { manifest := freshManifest cid ts0 } r1 s1 t1 sp ts1).1
        r2 s2 t2 sp ts2).2.1 = "session_0002" ∧
    (record_session sdir
        (record_session sdir
          (record_session sdir { manifest := freshManifest cid ts0 } r1 s1 t1 sp ts1).1
          r2 s2 t2 sp ts2).1
        r3 s3 t3 sp ts3).2.1 = "session_0003" ∧
    (record_session sdir
        (record_session sdir
          (record_session sdir { manifest := freshManifest cid ts0 } r1 s1 t1 sp ts1).1
          r2 s2 t2 sp ts2).1
        r3 s3 t3 sp ts3).1.manifest.session_count = 3 ∧
    (record_session sdir
        (record_session sdir
          (record_session sdir { manifest := freshManifest cid ts0 } r1 s1 t1 sp ts1).1
          r2 s2 t2 sp ts2).1
        r3 s3 t3 sp ts3).1.latest_state = some (campaign_state_to_dict r3.final_state) := by
  refine ⟨?_, ?_, ?_, ?_, rfl⟩ <;> rfl

/-- The single-character scenario of C5: hp 2, no discovery flag. -/
def c5Campaign : CampaignState :=
  { setting_name := "S", chapter := "Chapter 1", turn_index := 0,
    party := [{ name := "Scout", hp := 2 }], encounters := [] }

/-- The effective policy of C5: caution 0.8, nothing else configured. -/
def c5Profile : PolicyProfile := { defaultPolicy := { caution := some (Frac.mk 4 5) } }

def c5Scene : Scene :=
  { prompt := "p", options := ["attack", "defend", "investigate", "negotiate", "rest"] }

/-- C5: for a single character with hp 2, options exactly
`[attack, defend, investigate, negotiate, rest]`, an effective policy with
caution 0.8 and no prior discovery flag, `choose_action` (AI disabled)
returns the action `rest`: the low-hp heuristic (rest 1 + 2.5 + 0.8 = 4.3)
dominates defend (3.3), investigate (3.0), negotiate (1.0) and attack (0.0). -/
theorem c5_low_hp_chooses_rest :
    (choose_action c5Profile (mkRandom 42) c5Campaign c5Scene "Scout").map (fun p => p.1)
      = some { actor_name := "Scout", action := "rest" } := by decide

/-- C10: `resolve_intent` is total over action strings and sends every action
other than `attack`, `defend`, `investigate` and `negotiate` — including
tokens `validate_intent` rejects, such as `use-equipment` — to the final
recovery branch: success is true and the actor gains +1 hp. -/
theorem c10_unmatched_action_rests (rng : Rng) (camp : CampaignState) (intent : ActionIntent)
    (h1 : intent.action ≠ "attack") (h2 : intent.action ≠ "defend")
    (h3 : intent.action ≠ "investigate") (h4 : intent.action ≠ "negotiate") :
    (resolve_intent rng camp intent).1.success = true ∧
    (resolve_intent rng camp intent).1.hp_delta = [(intent.actor_name, 1)] := by
  simp [resolve_intent, h1, h2, h3, h4]

/-- Witness for C10 at the concrete token `use-equipment` (which
`validate_intent` indeed rejects). -/
theorem c10_witness :
    (("use-equipment" : String) ≠ "attack" ∧ ("use-equipment" : String) ≠ "defend" ∧
     ("use-equipment" : String) ≠ "investigate" ∧ ("use-equipment" : String) ≠ "negotiate") ∧
    (resolve_intent (mkRandom 42) c5Campaign ⟨"Scout", "use-equipment", none⟩).1.success
        = true ∧
    (resolve_intent (mkRandom 42) c5Campaign ⟨"Scout", "use-equipment", none⟩).1.hp_delta
        = [("Scout", 1)] ∧
    validate_intent c5Campaign ⟨"Scout", "use-equipment", none⟩ = false := by
  refine ⟨⟨by decide, by decide, by decide, by decide⟩, ?_, ?_, by decide⟩
  · exact (c10_unmatched_action_rests (mkRandom 42) c5Campaign ⟨"Scout", "use-equipment", none⟩
      (by decide) (by decide) (by decide) (by decide)).1
  · exact (c10_unmatched_action_rests (mkRandom 42) c5Campaign ⟨"Scout", "use-equipment", none⟩
      (by decide) (by decide) (by decide) (by decide)).2

theorem find?_name_of_mem (party : List Character) (nm : String)
    (h : ∃ m ∈ party, m.name = nm) :
    ∃ actor, party.find? (fun m => m.name == nm) = some actor := by
  have hs : (party.find? (fun m => m.name == nm)).isSome = true :=
    List.find?_isSome.mpr (by
      rcases h with ⟨m, hm, he⟩
      exact ⟨m, hm, by simp [he]⟩)
  exact Option.isSome_iff_exists.mp hs

/-- C4, counterexample: `choose_action` does fail for some inputs — a scene
with an empty option list makes the Python `max` over an empty dict raise
(and an actor name absent from the party makes the `next(...)` lookup
raise), both modelled as `none`. -/
theorem c4_counterexample :
    choose_action {} (mkRandom 42) c5Campaign { prompt := "p", options := [] } "Scout"
        = none ∧
    choose_action {} (mkRandom 42) c5Campaign { prompt := "p", options := ["attack"] } "Ghost"
        = none :=
  ⟨rfl, rfl⟩

/-- C4, amended: when `actor_name` names a party member and `scene.options`
is nonempty, `choose_action` (AI disabled) always succeeds and returns an
`ActionIntent` for that actor whose action is an element of
`scene.options`. -/
theorem c4_choose_action_in_options (profile : PolicyProfile) (rng : Rng)
    (campaign : CampaignState) (scene : Scene) (actor_name : String)
    (hmem : ∃ m ∈ campaign.party, m.name = actor_name)
    (hopts : scene.options ≠ []) :
    ∃ intent rng', choose_action profile rng campaign scene actor_name = some (intent, rng') ∧
      intent.actor_name = actor_name ∧ intent.action ∈ scene.options := by
  obtain ⟨actor, hfind⟩ := find?_name_of_mem campaign.party actor_name hmem
  obtain ⟨a, rng', hcp, hmemopts⟩ :=
    choose_from_policy_spec profile rng campaign scene actor
      (resolve_policy profile actor_name) hopts
  refine ⟨{ actor_name := actor_name, action := a }, rng', ?_, rfl, hmemopts⟩
  unfold choose_action
  rw [hfind]
  dsimp only
  rw [hcp]

/-- Witness for C4's amended theorem at a concrete input. -/
theorem c4_witness :
    (∃ m ∈ c5Campaign.party, m.name = "Scout") ∧ (["attack"] ≠ ([] : List String)) ∧
    (∃ intent rng',
      choose_action {} (mkRandom 7) c5Campaign { prompt := "p", options := ["attack"] } "Scout"
          = some (intent, rng') ∧
      intent.actor_name = "Scout" ∧ intent.action ∈ ["attack"]) := by
  refine ⟨⟨{ name := "Scout", hp := 2 }, by decide, rfl⟩, by decide, ?_⟩
  exact c4_choose_action_in_options {} (mkRandom 7) c5Campaign
    { prompt := "p", options := ["attack"] } "Scout"
    ⟨{ name := "Scout", hp := 2 }, by decide, rfl⟩ (by decide)

theorem stringList_mem_contains (l : List String) (a : String) (h : a ∈ l) :
    l.contains a = true := by
  simpa [List.contains] using List.elem_iff.mpr h

theorem stringList_not_mem_contains (l : List String) (a : String) (h : a ∉ l) :
    l.contains a = false := by
  cases hc : l.contains a with
  | false => rfl
  | true => exact absurd (stringList_contains_mem l a hc) h

theorem build_scene_options_eq (chunks : List String) (rng : Rng) (camp : CampaignState) :
    (build_scene chunks rng camp).1.options = sceneOptions := by
  unfold build_scene
  cases chunks <;> rfl

/-- C3: during `SessionEngine.run` an intent is resolved iff its action is in
the current scene's option list.  First conjunct: `validate_intent` accepts
an intent iff its action is an element of the options of the scene the
director builds (the fixed five-action vocabulary).  Second conjunct: in the
engine's per-character step for a living character whose chosen intent is
returned by the actor, an in-options action gets an outcome resolved and
recorded, while an out-of-options action only appends the rejection log line
and records no outcome for that character. -/
theorem c3_intent_validation :
    (∀ (camp : CampaignState) (intent : ActionIntent) (chunks : List String) (rng : Rng),
        validate_intent camp intent = true ↔
          intent.action ∈ (build_scene chunks rng camp).1.options) ∧
    (∀ (profile : PolicyProfile) (turn : Int) (scene : Scene) (st : RunState) (i : Nat)
        (intent : ActionIntent) (actorRng' : Rng),
        scene.options = sceneOptions →
        ¬ (st.campaign.party.getD i arbCharacter).hp ≤ 0 →
        choose_action profile st.actorRng st.campaign scene
            (st.campaign.party.getD i arbCharacter).name = some (intent, actorRng') →
        ((intent.action ∈ scene.options →
            ∃ st', stepCharacter profile turn scene st i = some st' ∧
              st'.intents = st.intents ++ [intent] ∧
              st'.outcomes = st.outcomes ++
                [(resolve_intent st.rulesetRng st.campaign intent).1]) ∧
         (intent.action ∉ scene.options →
            stepCharacter profile turn scene st i = some
              { st with
                campaign := { st.campaign with
                  log := st.campaign.log ++
                    [invalidActionLine turn (st.campaign.party.getD i arbCharacter).name] }
                actorRng := actorRng' }))) := by
  constructor
  · intro camp intent chunks rng
    rw [build_scene_options_eq]
    unfold validate_intent
    rw [show allowedGeneric = sceneOptions from rfl]
    exact ⟨stringList_contains_mem _ _, stringList_mem_contains _ _⟩
  · intro profile turn scene st i intent actorRng' hopts halive hchoose
    constructor
    · intro hmem
      have hval : validate_intent st.campaign intent = true := by
        unfold validate_intent
        rw [show allowedGeneric = sceneOptions from rfl]
        exact stringList_mem_contains _ _ (hopts ▸ hmem)
      unfold stepCharacter
      rw [if_neg halive, hchoose]
      dsimp only
      rw [if_pos hval]
      exact ⟨_, rfl, rfl, rfl⟩
    · intro hnmem
      have hval : validate_intent st.campaign intent = false := by
        unfold validate_intent
        rw [show allowedGeneric = sceneOptions from rfl]
        exact stringList_not_mem_contains _ _ (fun hc => hnmem (hopts ▸ hc))
      unfold stepCharacter
      rw [if_neg halive, hchoose]
      dsimp only
      rw [if_neg (by rw [hval]; exact Bool.false_ne_true)]

/-- Fixture for the C3 witness: one living character, empty profile. -/
def c3StateW : RunState :=
  { campaign :=
      { setting_name := "S", chapter := "Ch", turn_index := 1,
        party := [{ name := "A", hp := 5 }], encounters := [] }
    rulesetRng := mkRandom 1
    actorRng := mkRandom 1
    intents := []
    outcomes := [] }

def c3IntentW : ActionIntent := { actor_name := "A", action := "investigate" }

/-- Witness for C3 at a concrete engine state: the policy actor picks
`investigate`, which is in the scene options, and the step records exactly
one outcome. -/
theorem c3_witness :
    (({ prompt := "p", options := sceneOptions } : Scene).options = sceneOptions) ∧
    ("investigate" ∈ sceneOptions) ∧
    (∃ st', stepCharacter {} 1 { prompt := "p", options := sceneOptions } c3StateW 0
        = some st' ∧
      st'.intents = c3StateW.intents ++ [c3IntentW] ∧
      st'.outcomes = c3StateW.outcomes ++
        [(resolve_intent c3StateW.rulesetRng c3StateW.campaign c3IntentW).1]) := by
  have h := c3_intent_validation.2 {} 1 { prompt := "p", options := sceneOptions } c3StateW 0
    c3IntentW (mkRandom 1) rfl (by decide) rfl
  exact ⟨rfl, by decide, h.1 (by decide)⟩

theorem map_zero_delta_id (party : List Character) (nm : String)
    (h : ∀ m ∈ party, 0 ≤ m.hp) :
    party.map (fun m => if m.name == nm then { m with hp := max 0 (m.hp + 0) } else m)
      = party := by
  have hpt : ∀ m ∈ party,
      (if m.name == nm then { m with hp := max 0 (m.hp + 0) } else m) = m := by
    intro m hm
    by_cases heq : m.name == nm
    · rw [if_pos heq, Int.add_zero, max_eq_right (h m hm)]
    · rw [if_neg heq]
  calc party.map (fun m => if m.name == nm then { m with hp := max 0 (m.hp + 0) } else m)
      = party.map id := List.map_congr_left hpt
    _ = party := List.map_id party

/-- C6: the generic ruleset's per-action effects.  A failed `attack` deals
-1 hp to the acting character; a successful `attack` (delta 0) and any
`investigate` (no delta) leave every character's hp unchanged; `rest` always
succeeds and restores +1 hp to the actor; a successful `investigate` sets
`flags["latest_discovery"]` to the non-empty string `clue_discovered`. -/
theorem c6_resolve_generic_effects (rng : Rng) (camp : CampaignState) (nm : String)
    (tg : Option String) (hnn : ∀ m ∈ camp.party, 0 ≤ m.hp) :
    ((resolve_intent rng camp ⟨nm, "attack", tg⟩).1.success = false →
      (resolve_intent rng camp ⟨nm, "attack", tg⟩).1.hp_delta = [(nm, -1)]) ∧
    ((resolve_intent rng camp ⟨nm, "attack", tg⟩).1.success = true →
      (resolve_intent rng camp ⟨nm, "attack", tg⟩).1.hp_delta = [(nm, 0)] ∧
      apply_outcome camp (resolve_intent rng camp ⟨nm, "attack", tg⟩).1 = camp) ∧
    ((resolve_intent rng camp ⟨nm, "investigate", tg⟩).1.hp_delta = [] ∧
      (apply_outcome camp (resolve_intent rng camp ⟨nm, "investigate", tg⟩).1).party
        = camp.party) ∧
    ((resolve_intent rng camp ⟨nm, "rest", tg⟩).1.success = true ∧
      (resolve_intent rng camp ⟨nm, "rest", tg⟩).1.hp_delta = [(nm, 1)]) ∧
    ((resolve_intent rng camp ⟨nm, "investigate", tg⟩).1.success = true →
      (resolve_intent rng camp ⟨nm, "investigate", tg⟩).1.flag_updates
          = [("latest_discovery", "clue_discovered")] ∧
      ("clue_discovered" : String) ≠ "") := by
  refine ⟨?_, ?_, ?_, ?_, ?_⟩
  · intro hfail
    simp [resolve_intent] at hfail ⊢
    simp [hfail]
  · intro hsucc
    have hd : (resolve_intent rng camp ⟨nm, "attack", tg⟩).1.hp_delta = [(nm, 0)] := by
      simp [resolve_intent] at hsucc ⊢
      simp [hsucc]
    refine ⟨hd, ?_⟩
    have hf : (resolve_intent rng camp ⟨nm, "attack", tg⟩).1.flag_updates = [] := by
      simp [resolve_intent]
    unfold apply_outcome
    rw [hd, hf]
    show { camp with
      party := camp.party.map
        (fun m => if m.name == nm then { m with hp := max 0 (m.hp + 0) } else m),
      flags := camp.flags } = camp
    rw [map_zero_delta_id camp.party nm hnn]
  · have hd : (resolve_intent rng camp ⟨nm, "investigate", tg⟩).1.hp_delta = [] := by
      simp [resolve_intent]
    refine ⟨hd, ?_⟩
    unfold apply_outcome
    rw [hd]
    rfl
  · constructor
    · simp [resolve_intent]
    · simp [resolve_intent]
  · intro hsucc
    simp [resolve_intent] at hsucc ⊢
    simp [hsucc]

def c6CampW : CampaignState :=
  { setting_name := "S6", chapter := "Ch", turn_index := 0,
    party := [{ name := "A", hp := 5 }], encounters := [] }

/-- Witness for C6 at a concrete rng (the modelled stream rolls 5, so the
attack fails) and a nonnegative-hp party. -/
theorem c6_witness :
    (∀ m ∈ c6CampW.party, 0 ≤ m.hp) ∧
    ((resolve_intent (mkRandom 3) c6CampW ⟨"A", "rest", none⟩).1.success = true ∧
     (resolve_intent (mkRandom 3) c6CampW ⟨"A", "rest", none⟩).1.hp_delta = [("A", 1)]) ∧
    ((resolve_intent (mkRandom 3) c6CampW ⟨"A", "attack", none⟩).1.success = false) ∧
    ((resolve_intent (mkRandom 3) c6CampW ⟨"A", "attack", none⟩).1.hp_delta = [("A", -1)]) := by
  have h := c6_resolve_generic_effects (mkRandom 3) c6CampW "A" none (by decide)
  exact ⟨by decide, h.2.2.2.1, by decide, h.1 (by decide)⟩

/-- Every party member's hp is nonnegative. -/
def partyNonneg (c : CampaignState) : Prop := ∀ m ∈ c.party, 0 ≤ m.hp

theorem foldl_hp_nonneg (hd : List (String × Int)) (party : List Character)
    (h : ∀ m ∈ party, 0 ≤ m.hp) :
    ∀ m ∈ hd.foldl
        (fun pt kv => pt.map
          (fun m => if m.name == kv.1 then { m with hp := max 0 (m.hp + kv.2) } else m))
        party, 0 ≤ m.hp := by
  induction hd generalizing party with
  | nil => exact h
  | cons kv t ih =>
    refine ih _ ?_
    intro m hm
    rcases List.mem_map.mp hm with ⟨m0, hm0, rfl⟩
    by_cases he : m0.name == kv.1
    · simp only [if_pos he]
      exact le_max_left 0 _
    · simp only [if_neg he]
      exact h m0 hm0

theorem apply_outcome_nonneg (camp : CampaignState) (out : ActionOutcome)
    (h : partyNonneg camp) : partyNonneg (apply_outcome camp out) := by
  intro m hm
  exact foldl_hp_nonneg out.hp_delta camp.party h m hm

theorem stepCharacter_nonneg (profile : PolicyProfile) (turn : Int) (scene : Scene)
    (st st' : RunState) (i : Nat)
    (hstep : stepCharacter profile turn scene st i = some st')
    (h : partyNonneg st.campaign) : partyNonneg st'.campaign := by
  unfold stepCharacter at hstep
  dsimp only at hstep
  split at hstep
  · cases hstep
    exact h
  · split at hstep
    · exact Option.noConfusion hstep
    · split at hstep
      · cases hstep
        exact apply_outcome_nonneg st.campaign _ h
      · cases hstep
        exact h

theorem foldSteps_nonneg (profile : PolicyProfile) (turn : Int) (scene : Scene) :
    ∀ (l : List Nat) (st st' : RunState),
      foldSteps (stepCharacter profile turn scene) l st = some st' →
      partyNonneg st.campaign → partyNonneg st'.campaign := by
  intro l
  induction l with
  | nil =>
    intro st st' hf h
    cases hf
    exact h
  | cons i t ih =>
    intro st st' hf h
    unfold foldSteps at hf
    split at hf
    · exact Option.noConfusion hf
    · next st1 hstep => exact ih st1 st' hf (stepCharacter_nonneg profile turn scene st st1 i hstep h)

theorem processTurn_nonneg (profile : PolicyProfile) (chunks : List String) (t : Int)
    (ls ls' : LoopState) (b : Bool)
    (hp : processTurn profile chunks t ls = some (ls', b))
    (h : partyNonneg ls.campaign) : partyNonneg ls'.campaign := by
  unfold processTurn at hp
  dsimp only at hp
  split at hp
  · exact Option.noConfusion hp
  · next stf heq =>
    have hf : partyNonneg stf.campaign :=
      foldSteps_nonneg profile t _ _ _ stf heq h
    cases hp
    intro m hm
    have hparty :
        (if all_party_defeated stf.campaign then
            { stf.campaign with
              log := stf.campaign.log ++ ["Session ended: all party members defeated"] }
          else stf.campaign).party = stf.campaign.party := by
      split <;> rfl
    rw [hparty] at hm
    exact hf m hm

theorem runLoop_nonneg (profile : PolicyProfile) (chunks : List String) :
    ∀ (ts : List Int) (ls ls' : LoopState),
      runLoop profile chunks ts ls = some ls' →
      partyNonneg ls.campaign → partyNonneg ls'.campaign := by
  intro ts
  induction ts with
  | nil =>
    intro ls ls' h hn
    cases h
    exact hn
  | cons t rest ih =>
    intro ls ls' h hn
    unfold runLoop at h
    split at h
    · exact Option.noConfusion h
    · next ls1 heq =>
      cases h
      exact processTurn_nonneg profile chunks t ls _ true heq hn
    · next ls1 heq =>
      exact ih ls1 ls' h (processTurn_nonneg profile chunks t ls ls1 false heq hn)

theorem runSession_nonneg (profile : PolicyProfile) (chunks : List String) (seed : Int)
    (camp : CampaignState) (n : Int) (res : SessionResult)
    (h : runSession profile chunks seed camp n = some res)
    (hn : partyNonneg camp) : partyNonneg res.final_state := by
  unfold runSession run at h
  split at h
  · exact Option.noConfusion h
  · next ls heq =>
    cases h
    exact runLoop_nonneg profile chunks _ _ _ heq hn

/-- C2: for every campaign whose party members all start with hp ≥ 0, hp
stays ≥ 0: applying an `ActionOutcome` clamps every affected character's hp
at 0; one engine turn maps a nonnegative-hp state to a nonnegative-hp state
(so the invariant holds after every turn); and the final state of a full run
has nonnegative hp for every party member. -/
theorem c2_hp_nonneg (camp : CampaignState) (h : partyNonneg camp) :
    (∀ outcome : ActionOutcome, partyNonneg (apply_outcome camp outcome)) ∧
    (∀ (profile : PolicyProfile) (chunks : List String) (t : Int) (ls ls' : LoopState)
        (b : Bool), partyNonneg ls.campaign →
        processTurn profile chunks t ls = some (ls', b) → partyNonneg ls'.campaign) ∧
    (∀ (profile : PolicyProfile) (chunks : List String) (seed n : Int)
        (res : SessionResult),
        runSession profile chunks seed camp n = some res → partyNonneg res.final_state) := by
  refine ⟨fun outcome => apply_outcome_nonneg camp outcome h, ?_, ?_⟩
  · intro profile chunks t ls ls' b hls hp
    exact processTurn_nonneg profile chunks t ls ls' b hp hls
  · intro profile chunks seed n res hrun
    exact runSession_nonneg profile chunks seed camp n res hrun h

def c2CampW : CampaignState :=
  { setting_name := "S2", chapter := "Ch", turn_index := 0,
    party := [{ name := "A", hp := 5 }, { name := "B", hp := 0 }], encounters := [] }

def c2OutW : ActionOutcome :=
  { actor_name := "A", success := false, summary := "s", hp_delta := [("A", -7)] }

/-- Witness for C2: a concrete nonnegative party stays nonnegative after an
outcome whose raw delta would drive hp to -2 (clamped to 0). -/
theorem c2_witness :
    partyNonneg c2CampW ∧ partyNonneg (apply_outcome c2CampW c2OutW) ∧
    (apply_outcome c2CampW c2OutW).party = [{ name := "A", hp := 0 }, { name := "B", hp := 0 }] := by
  refine ⟨?_, ?_, by decide⟩
  · unfold partyNonneg
    decide
  · exact (c2_hp_nonneg c2CampW (by unfold partyNonneg; decide)).1 c2OutW

def c9Campaign : CampaignState :=
  { setting_name := "Empty", chapter := "Ch", turn_index := 0, party := [], encounters := [] }

/-- C9, counterexample: `SessionEngine.run` does not reject configuration
errors.  With `max_turns = 0` it returns a normal `SessionResult` instead of
failing; with an empty party and `max_turns = 3` it processes a turn —
producing one `TurnResult`, advancing `turn_index` to 1 and appending a log
line — rather than failing before any turn executes. -/
theorem c9_counterexample :
    (runSession {} [] 7 c9Campaign 0 ≠ none) ∧
    (runSession {} [] 7 c9Campaign 0
        = some { setting_name := "Empty", total_turns := 0, final_state := c9Campaign,
                 turns := [] }) ∧
    ((runSession {} [] 7 c9Campaign 3).map (fun r => r.turns.length) = some 1) ∧
    ((runSession {} [] 7 c9Campaign 3).map (fun r => r.final_state.turn_index) = some 1) ∧
    ((runSession {} [] 7 c9Campaign 3).map (fun r => r.final_state.log)
        = some ["Session ended: all party members defeated"]) := by
  exact ⟨by decide, by decide, by decide, by decide, by decide⟩

theorem processTurn_empty_party (profile : PolicyProfile) (chunks : List String) (t : Int)
    (ls : LoopState) (hp : ls.campaign.party = []) :
    processTurn profile chunks t ls = some
      ({ campaign :=
           { ls.campaign with
             turn_index := t,
             log := ls.campaign.log ++ ["Session ended: all party members defeated"] },
         rulesetRng := ls.rulesetRng,
         directorRng :=
           (build_scene chunks ls.directorRng { ls.campaign with turn_index := t }).2,
         actorRng := ls.actorRng,
         turns := ls.turns ++
           [{ turn_index := t,
              scene_prompt :=
                (build_scene chunks ls.directorRng { ls.campaign with turn_index := t }).1.prompt,
              intents := [], outcomes := [] }] }, true) := by
  unfold processTurn
  dsimp only
  rw [show ({ ls.campaign with turn_index := t } : CampaignState).party = ls.campaign.party
      from rfl, hp]
  simp only [List.length_nil, List.range_zero, foldSteps]
  simp [all_party_defeated, hp]

/-- C9, amended: `SessionEngine.run` performs no configuration validation.
With `max_turns < 1` the turn loop body never executes and the call returns
normally: an empty `TurnResult` list, the unmodified campaign as final
state, and `total_turns` equal to the campaign's incoming `turn_index`.
With an empty party and `max_turns ≥ 1` it does not fail either: it runs
the first turn against the empty party, records one `TurnResult` with no
intents or outcomes, sets `turn_index` to 1, appends the terminal
all-defeated log line, and stops early. -/
theorem c9_no_config_validation (profile : PolicyProfile) (chunks : List String) (seed : Int)
    (camp : CampaignState) (n : Int) :
    (n < 1 → runSession profile chunks seed camp n
        = some { setting_name := camp.setting_name, total_turns := camp.turn_index,
                 final_state := camp, turns := [] }) ∧
    (camp.party = [] → 1 ≤ n →
      ∃ p, runSession profile chunks seed camp n
        = some { setting_name := camp.setting_name, total_turns := 1,
                 final_state :=
                   { camp with
                     turn_index := 1,
                     log := camp.log ++ ["Session ended: all party members defeated"] },
                 turns := [{ turn_index := 1, scene_prompt := p, intents := [],
                             outcomes := [] }] }) := by
  constructor
  · intro hn
    have h0 : n.toNat = 0 := by omega
    unfold runSession run turnNumbers
    rw [h0]
    rfl
  · intro hp hn
    obtain ⟨k, hk⟩ : ∃ k, n.toNat = k + 1 := ⟨n.toNat - 1, by omega⟩
    refine ⟨(build_scene chunks (mkRandom seed) { camp with turn_index := 1 }).1.prompt, ?_⟩
    unfold runSession run turnNumbers
    rw [hk, show List.range' 1 (k + 1) = 1 :: List.range' 2 k from rfl]
    dsimp only [List.map]
    unfold runLoop
    rw [show ((1 : Nat) : Int) = 1 from rfl,
      processTurn_empty_party profile chunks 1
        { campaign := camp, rulesetRng := mkRandom seed, directorRng := mkRandom seed,
          actorRng := mkRandom seed, turns := [] } hp]
    rfl

/-- Witness for C9's amended theorem at concrete inputs. -/
theorem c9_witness :
    ((0 : Int) < 1) ∧
    (runSession {} [] 7 c9Campaign 0
        = some { setting_name := c9Campaign.setting_name, total_turns := c9Campaign.turn_index,
                 final_state := c9Campaign, turns := [] }) ∧
    (c9Campaign.party = []) ∧ ((1 : Int) ≤ 3) ∧
    (∃ p, runSession {} [] 7 c9Campaign 3
        = some { setting_name := c9Campaign.setting_name, total_turns := 1,
                 final_state :=
                   { c9Campaign with
                     turn_index := 1,
                     log := c9Campaign.log ++ ["Session ended: all party members defeated"] },
                 turns := [{ turn_index := 1, scene_prompt := p, intents := [],
                             outcomes := [] }] }) := by
  refine ⟨by decide, ?_, by decide, by decide, ?_⟩
  · exact (c9_no_config_validation {} [] 7 c9Campaign 0).1 (by decide)
  · exact (c9_no_config_validation {} [] 7 c9Campaign 3).2 (by decide) (by decide)

end RpgSim
